import Mathlib

/-
Verification of the `detect-compression` library (src/src/lib.rs): a shallow
embedding of its format dispatch, compression-level mapping, unified
reader/writer construction, and the writer finalization discipline.

Modelling conventions:
* Bytes are `Nat`, byte streams are `List Nat` (the library only moves bytes
  around; no byte arithmetic occurs).
* A path is represented by the result of `Path::extension()` on it (an
  `Option String`); the extension is the only component of the path the
  library's dispatch logic consults, and the filesystem accesses
  (`File::open`, `File::create`) are passed in as explicit oracle arguments.
* External collaborators (std `BufWriter`/`BufReader`, the flate2 gzip codec,
  the lz4 codec) are modelled at their documented contract level; the actual
  compressed byte transformations are opaque and not modelled, only the
  success/failure and data-flow structure the library relies on.
* Fallible Rust operations (`io::Result`) become `Except IOError`; `panic!`
  and `expect` become the `CallResult.panicked` constructor.
-/

namespace DetectCompression

/-- Model of `std::io::ErrorKind`, restricted to the kinds this library
constructs or that its oracles need to distinguish. -/
inductive ErrorKind where
  | invalidInput
  | other
deriving DecidableEq, Repr

/-- Model of `std::io::Error`: a kind plus a message. -/
structure IOError where
  kind : ErrorKind
  msg : String
deriving DecidableEq, Repr

/-- Outcome of calling a Rust function that may `panic!` instead of
returning: either a returned value or a panic with its message. -/
inductive CallResult (α : Type) where
  | returned (a : α)
  | panicked (msg : String)
deriving Repr

/-- How a writer's lifetime ends: normal destruction, or abnormal
termination by a panic (in particular from the `Drop` impl). -/
inductive TermOutcome where
  | normal
  | panicked (msg : String)
deriving DecidableEq, Repr

/-- Model of `flate2::Compression` (a wrapped numeric gzip level). -/
structure Compression where
  level : Nat
deriving DecidableEq, Repr

/-- Model of `flate2::Compression::none()`: level 0, i.e. no compression. -/
def Compression.none : Compression := ⟨0⟩

/-- Model of `flate2::Compression::fast()`: level 1, the fastest setting. -/
def Compression.fast : Compression := ⟨1⟩

/-- Model of `flate2::Compression::best()`: level 9, the best/smallest setting. -/
def Compression.best : Compression := ⟨9⟩

/-- The `Level` enum of src/src/lib.rs: `None` / `Minimum` / `Maximum`. -/
inductive Level where
  | none
  | minimum
  | maximum
deriving DecidableEq, Repr

/-- `Level::into_flate2_compression` from src/src/lib.rs. -/
def Level.into_flate2_compression : Level → Compression
  | Level.none => Compression.none
  | Level.minimum => Compression.fast
  | Level.maximum => Compression.best

/-- `Level::into_lz4_level` from src/src/lib.rs: `None` is rejected with an
`InvalidInput` error, `Minimum` maps to 1, `Maximum` maps to 3. -/
def Level.into_lz4_level : Level → Except IOError Nat
  | Level.none =>
      Except.error ⟨ErrorKind.invalidInput, "LZ4 don't support non-compression mode"⟩
  | Level.minimum => Except.ok 1
  | Level.maximum => Except.ok 3

/-- The closed set of codecs the dispatch logic selects from. -/
inductive Codec where
  | gzip
  | lz4
  | identity
deriving DecidableEq, Repr

/-- Decision rule of the Format Dispatch component as the spec states it
(section 4.1): compare the path's extension, case-sensitively, to "gz" then
"lz4"; anything else, including no extension, yields the identity codec.
This is the spec-side function; the theorems relate the source-side
`open_with_wrapper` / `create_with_wrapper` branch choices to it. -/
def detectCodec : Option String → Codec
  | some e => if e = "gz" then Codec.gzip else if e = "lz4" then Codec.lz4 else Codec.identity
  | Option.none => Codec.identity

/-- A path, represented by the result of `Path::extension()` on it.  The
dispatch logic of the library consults nothing else of the path; the
filesystem effects on the path are supplied by oracle arguments. -/
structure PathM where
  ext : Option String
deriving DecidableEq, Repr

/-- Model of the raw `std::fs::File` handle returned by `File::create`
(freshly created, hence empty); its content evolution is tracked by
`WrappedFileW`. -/
inductive FileW where
  | mk
deriving DecidableEq, Repr

/-- The write-side wrapper around the raw file, as the stream it realizes:
`transform` maps the bytes written through the wrapper to the bytes that
reach the raw file, and `received` are the bytes written through it so far. -/
structure WrappedFileW where
  transform : List Nat → List Nat
  received : List Nat

/-- Bytes present in the raw target file: the wrapper's transform applied to
everything written through it. -/
def WrappedFileW.fileBytes (w : WrappedFileW) : List Nat :=
  w.transform w.received

/-- The `ReadWrapperBuilder` trait of src/src/lib.rs, at contract level: a
builder turns the raw file's byte stream into the wrapped byte stream the
codec will see. -/
class ReadWrapperBuilder (B : Type) where
  new_wrapped_reader : B → List Nat → List Nat

/-- The `WriteWrapperBuilder` trait of src/src/lib.rs, at contract level: a
builder turns the freshly created raw file into a wrapped writable stream. -/
class WriteWrapperBuilder (B : Type) where
  new_wrapped_writer : B → FileW → WrappedFileW

/-- The `Id` default wrapper of src/src/lib.rs (a unit struct implementing
both wrapper-builder traits by returning the file unchanged). -/
inductive Id where
  | mk
deriving DecidableEq, Repr

instance : ReadWrapperBuilder Id where
  new_wrapped_reader := fun _ bs => bs

instance : WriteWrapperBuilder Id where
  new_wrapped_writer := fun _ _ => ⟨fun bs => bs, []⟩

/-- Model of `lz4::Decoder` right after `Lz4Decoder::new(wf)` succeeded:
the decoded byte stream it will produce, plus the error, if any, that a
read past the decoded bytes will surface (malformed tail, bad checksum). -/
structure Lz4DecSt where
  output : List Nat
  tailErr : Option IOError

/-- The `DetectReader` of src/src/lib.rs at contract level.  `codec` records
which dispatch branch built the boxed reader; `buffered` is the byte stream
still readable through the `BufRead` interface; `tailErr` is the error, if
any, that reading past those bytes surfaces (malformed compressed content
is detected by the decoders on later reads, not at `open` time). -/
structure DetectReader where
  codec : Codec
  buffered : List Nat
  tailErr : Option IOError

/-- The `read` of `impl Read for DetectReader`: forwards to the inner
buffered reader, returning at most `n` bytes and the advanced reader. -/
def DetectReader.read (n : Nat) (r : DetectReader) : List Nat × DetectReader :=
  (r.buffered.take n, { r with buffered := r.buffered.drop n })

/-- The `fill_buf` of `impl BufRead for DetectReader`: expose the buffered
view; when the buffer is exhausted, surface the pending decode error. -/
def DetectReader.fill_buf (r : DetectReader) : Except IOError (List Nat) :=
  if r.buffered = [] then
    match r.tailErr with
    | some e => Except.error e
    | Option.none => Except.ok []
  else Except.ok r.buffered

/-- The `consume` of `impl BufRead for DetectReader`: mark `amt` buffered
bytes as consumed. -/
def DetectReader.consume (amt : Nat) (r : DetectReader) : DetectReader :=
  { r with buffered := r.buffered.drop amt }

/-- Reading the stream to its end: all remaining decodable bytes. -/
def DetectReader.readAll (r : DetectReader) : List Nat :=
  r.buffered

/-- `DetectReader::open_with_wrapper` from src/src/lib.rs.  Oracle
arguments stand for the external effects: `fopen` is the result of
`File::open(path)` (the raw file's bytes, or an open error); `lz4New` is
`lz4::Decoder::new` on the wrapped stream (it reads the frame header during
construction and can fail); `gzDec` is the flate2 `GzDecoder` read
behaviour on the wrapped stream (decoded bytes plus the error, if any, a
later read of a malformed stream produces — `GzDecoder::new` itself is
infallible and reads nothing). -/
def DetectReader.open_with_wrapper {B : Type} [ReadWrapperBuilder B]
    (path : PathM) (builder : B)
    (fopen : Except IOError (List Nat))
    (lz4New : List Nat → Except IOError Lz4DecSt)
    (gzDec : List Nat → List Nat × Option IOError) :
    Except IOError DetectReader :=
  match fopen with
  | Except.error e => Except.error e
  | Except.ok f =>
      let wf := ReadWrapperBuilder.new_wrapped_reader builder f
      match path.ext with
      | some e =>
          if e = "gz" then
            Except.ok { codec := Codec.gzip, buffered := (gzDec wf).1, tailErr := (gzDec wf).2 }
          else if e = "lz4" then
            match lz4New wf with
            | Except.error er => Except.error er
            | Except.ok d => Except.ok { codec := Codec.lz4, buffered := d.output, tailErr := d.tailErr }
          else
            Except.ok { codec := Codec.identity, buffered := wf, tailErr := Option.none }
      | Option.none =>
          Except.ok { codec := Codec.identity, buffered := wf, tailErr := Option.none }

/-- `DetectReader::open` from src/src/lib.rs: delegates to
`open_with_wrapper` with the `Id` wrapper. -/
def DetectReader.open' (path : PathM)
    (fopen : Except IOError (List Nat))
    (lz4New : List Nat → Except IOError Lz4DecSt)
    (gzDec : List Nat → List Nat × Option IOError) :
    Except IOError DetectReader :=
  DetectReader.open_with_wrapper path Id.mk fopen lz4New gzDec

/-- Oracle for the fallible effects of the write-side externals during one
writer lifecycle: the error, if any, produced by a flush of the underlying
chain, and the error, if any, produced by `Lz4Encoder::finish`. -/
structure WOracle where
  flushErr : Option IOError
  finishErr : Option IOError

/-- Oracle without failures. -/
def noErrO : WOracle := ⟨Option.none, Option.none⟩

/-- Model of `std::io::BufWriter` over the wrapped file: `dest` the wrapped
file beneath, `buf` the bytes buffered and not yet flushed down.  (The std
buffer-capacity-triggered early flushes are not modelled; only the
flush-moves-everything-down contract the library relies on.) -/
structure BufWriterSt where
  dest : WrappedFileW
  buf : List Nat

/-- `BufWriter::write` contract: buffer the bytes. -/
def BufWriterSt.writeB (bs : List Nat) (st : BufWriterSt) : BufWriterSt :=
  { st with buf := st.buf ++ bs }

/-- `BufWriter::flush` contract: push the buffered bytes through the wrapper
to the file; may fail with the oracle's flush error, leaving the state. -/
def BufWriterSt.flushB (o : WOracle) (st : BufWriterSt) :
    Except IOError Unit × BufWriterSt :=
  match o.flushErr with
  | some e => (Except.error e, st)
  | Option.none =>
      (Except.ok (), { dest := { st.dest with received := st.dest.received ++ st.buf }, buf := [] })

/-- Model of `flate2::write::GzEncoder` over the `BufWriter`: the bytes fed
to it and the writer beneath.  The compressed bytes it emits into `inner`
are opaque and not modelled; no claim depends on them. -/
structure GzEncoderSt where
  compression : Compression
  input : List Nat
  inner : BufWriterSt

/-- Model of `lz4::Encoder` as built by `EncoderBuilder::new().level(lv)
.checksum(ContentChecksum::ChecksumEnabled).build(w)`: its tuning, the bytes
fed to it and the writer beneath (emitted compressed bytes are opaque). -/
structure Lz4EncoderSt where
  level : Nat
  checksum : Bool
  input : List Nat
  inner : BufWriterSt

/-- The `Box<dyn Finalize>` held by `DetectWriter`: one of the three
encoder chains the dispatch in `create_with_wrapper` builds.  The lz4 case
is `FinalizeLz4Encoder(Option<Lz4Encoder<W>>)` from src/src/lib.rs, whose
`Option` is taken by `finalize`. -/
inductive InnerW where
  | bufW (st : BufWriterSt)
  | gzEnc (st : GzEncoderSt)
  | lz4Enc (st : Option Lz4EncoderSt)

/-- Which dispatch branch built this inner chain. -/
def InnerW.codecOf : InnerW → Codec
  | InnerW.bufW _ => Codec.identity
  | InnerW.gzEnc _ => Codec.gzip
  | InnerW.lz4Enc _ => Codec.lz4

/-- Observable events of the write-side externals, used to state how often
and in which order the finalization steps run: a flush of an inner
writer/encoder, the `Lz4Encoder::finish` frame completion, and an
invocation of `self.inner.finalize()` by `DetectWriter::finalize`. -/
inductive Ev where
  | flush
  | lz4Finish
  | innerFin
deriving DecidableEq, Repr

/-- The panic message of `FinalizeLz4Encoder`'s `expect` calls. -/
def alreadyFinalizedMsg : String := "writer already finalized"

/-- The panic message of `impl Drop for DetectWriter`. -/
def dropMsg : String := "DetectWriter must be finalized. But dropped before finalization."

/-- `Write::write` across the three `Finalize` implementors.  Write errors
of the external encoders are not modelled (no claim depends on them), so
the `Except` is always `ok`; the lz4 case panics after finalization, as the
source's `expect("writer already finalized")` does. -/
def InnerW.writeI (bs : List Nat) : InnerW → CallResult (Except IOError (Nat × InnerW))
  | InnerW.bufW st => CallResult.returned (Except.ok (bs.length, InnerW.bufW (st.writeB bs)))
  | InnerW.gzEnc st =>
      CallResult.returned (Except.ok (bs.length, InnerW.gzEnc { st with input := st.input ++ bs }))
  | InnerW.lz4Enc (some st) =>
      CallResult.returned (Except.ok (bs.length, InnerW.lz4Enc (some { st with input := st.input ++ bs })))
  | InnerW.lz4Enc Option.none => CallResult.panicked alreadyFinalizedMsg

/-- `Write::flush` across the three `Finalize` implementors, with the event
it performs.  For the gzip and lz4 encoders the compressed bytes pushed
down are opaque, so a successful flush changes no modelled state; for the
plain `BufWriter` it moves the buffered bytes to the file.  The lz4 case
panics after finalization (`expect`), before any flush happens. -/
def InnerW.flushI (o : WOracle) : InnerW → CallResult (Except IOError Unit × InnerW) × List Ev
  | InnerW.bufW st =>
      let (r, st') := st.flushB o
      (CallResult.returned (r, InnerW.bufW st'), [Ev.flush])
  | InnerW.gzEnc st =>
      (match o.flushErr with
       | some e => CallResult.returned (Except.error e, InnerW.gzEnc st)
       | Option.none => CallResult.returned (Except.ok (), InnerW.gzEnc st), [Ev.flush])
  | InnerW.lz4Enc (some st) =>
      (match o.flushErr with
       | some e => CallResult.returned (Except.error e, InnerW.lz4Enc (some st))
       | Option.none => CallResult.returned (Except.ok (), InnerW.lz4Enc (some st)), [Ev.flush])
  | InnerW.lz4Enc Option.none => (CallResult.panicked alreadyFinalizedMsg, [])

/-- Result of `Lz4Encoder::finish().1` under the oracle. -/
def finishRes (o : WOracle) : Except IOError Unit :=
  match o.finishErr with
  | some e => Except.error e
  | Option.none => Except.ok ()

/-- The `Finalize` trait dispatch of src/src/lib.rs.  `File`, `GzEncoder`
and `BufWriter` use the default method, which is exactly `self.flush()`;
`FinalizeLz4Encoder` first flushes (`self.flush()?`), then takes the
encoder out of its `Option` and completes the frame with `finish()`. -/
def InnerW.finalizeI (o : WOracle) : InnerW → CallResult (Except IOError Unit × InnerW) × List Ev
  | InnerW.bufW st => InnerW.flushI o (InnerW.bufW st)
  | InnerW.gzEnc st => InnerW.flushI o (InnerW.gzEnc st)
  | InnerW.lz4Enc x =>
      match InnerW.flushI o (InnerW.lz4Enc x) with
      | (CallResult.panicked m, tr) => (CallResult.panicked m, tr)
      | (CallResult.returned (Except.error e, i), tr) =>
          (CallResult.returned (Except.error e, i), tr)
      | (CallResult.returned (Except.ok _, _), tr) =>
          (CallResult.returned (finishRes o, InnerW.lz4Enc Option.none), tr ++ [Ev.lz4Finish])

/-- The `DetectWriter` of src/src/lib.rs: the boxed `Finalize` chain plus
the `not_closed` flag. -/
structure DetectWriter where
  inner : InnerW
  not_closed : Bool

/-- `impl Write for DetectWriter`, `write`: forwards to the inner chain. -/
def DetectWriter.write (bs : List Nat) (w : DetectWriter) :
    CallResult (Except IOError (Nat × DetectWriter)) :=
  match InnerW.writeI bs w.inner with
  | CallResult.panicked m => CallResult.panicked m
  | CallResult.returned (Except.error e) => CallResult.returned (Except.error e)
  | CallResult.returned (Except.ok (n, i)) =>
      CallResult.returned (Except.ok (n, { w with inner := i }))

/-- `impl Write for DetectWriter`, `flush`: forwards to the inner chain. -/
def DetectWriter.flush (o : WOracle) (w : DetectWriter) :
    CallResult (Except IOError Unit × DetectWriter) × List Ev :=
  match InnerW.flushI o w.inner with
  | (CallResult.panicked m, tr) => (CallResult.panicked m, tr)
  | (CallResult.returned (r, i), tr) =>
      (CallResult.returned (r, { w with inner := i }), tr)

/-- `impl Drop for DetectWriter`: panics when the writer was never
finalized, otherwise does nothing. -/
def DetectWriter.dropW (w : DetectWriter) : TermOutcome :=
  if w.not_closed then TermOutcome.panicked dropMsg else TermOutcome.normal

/-- `DetectWriter::finalize(mut self)` from src/src/lib.rs, together with
the implicit drop of the consumed `self` at the end of the call.  Faithful
to the source's control flow: when `self.inner.finalize()` returns an
error, the `?` early-returns it — but the early return drops `self` while
`not_closed` is still `true`, so the `Drop` impl panics and the error value
never reaches the caller; only on the success path is `not_closed` set to
`false` before `self` is dropped.  Results: the call outcome, the inner
chain's state when the writer's lifetime ends (the surviving world), and
the event trace, which starts with `Ev.innerFin` exactly when
`self.inner.finalize()` was invoked. -/
def DetectWriter.finalize (o : WOracle) (self : DetectWriter) :
    CallResult (Except IOError Unit) × InnerW × List Ev :=
  if self.not_closed then
    match InnerW.finalizeI o self.inner with
    | (CallResult.panicked m, tr) => (CallResult.panicked m, self.inner, Ev.innerFin :: tr)
    | (CallResult.returned (Except.error _, i), tr) =>
        (CallResult.panicked dropMsg, i, Ev.innerFin :: tr)
    | (CallResult.returned (Except.ok _, i), tr) =>
        (CallResult.returned (Except.ok ()), i, Ev.innerFin :: tr)
  else
    (CallResult.returned (Except.ok ()), self.inner, [])

/-- `DetectWriter::create_with_wrapper` from src/src/lib.rs.  Oracle
arguments: `fcreate` is the result of `File::create(path)` (run first, so a
success creates/truncates the target file before anything else happens);
`lz4Build` is the outcome of `Lz4EncoderBuilder::build` (which can fail
with an I/O error).  Results: the created writer or the error, and the
content of the target file as the call leaves it — `Option.none` when
`File::create` failed (no file produced), otherwise the (empty) bytes the
wrapper has emitted so far. -/
def DetectWriter.create_with_wrapper {B : Type} [WriteWrapperBuilder B]
    (path : PathM) (level : Level) (builder : B)
    (fcreate : Except IOError FileW)
    (lz4Build : Except IOError Unit) :
    (Except IOError DetectWriter) × Option (List Nat) :=
  match fcreate with
  | Except.error e => (Except.error e, Option.none)
  | Except.ok f =>
      let wf := WriteWrapperBuilder.new_wrapped_writer builder f
      let w : BufWriterSt := { dest := wf, buf := [] }
      let inner : Except IOError InnerW :=
        match path.ext with
        | some e =>
            if e = "gz" then
              Except.ok (InnerW.gzEnc
                { compression := level.into_flate2_compression, input := [], inner := w })
            else if e = "lz4" then
              match level.into_lz4_level with
              | Except.error er => Except.error er
              | Except.ok lv =>
                  match lz4Build with
                  | Except.error er => Except.error er
                  | Except.ok _ =>
                      Except.ok (InnerW.lz4Enc
                        (some { level := lv, checksum := true, input := [], inner := w }))
            else Except.ok (InnerW.bufW w)
        | Option.none => Except.ok (InnerW.bufW w)
      match inner with
      | Except.error e => (Except.error e, some wf.fileBytes)
      | Except.ok i => (Except.ok { inner := i, not_closed := true }, some wf.fileBytes)

/-- `DetectWriter::create` from src/src/lib.rs: delegates to
`create_with_wrapper` with the `Id` wrapper. -/
def DetectWriter.create (path : PathM) (level : Level)
    (fcreate : Except IOError FileW)
    (lz4Build : Except IOError Unit) :
    (Except IOError DetectWriter) × Option (List Nat) :=
  DetectWriter.create_with_wrapper path level Id.mk fcreate lz4Build

/-- The operations a caller can perform on a live `DetectWriter` through
`impl Write` before ending its lifetime. -/
inductive WOp where
  | write (bs : List Nat)
  | flush

/-- How a writer's lifetime ends.  Rust's move semantics make `finalize`
(which consumes `self`) and the implicit drop the only two ways a
`DetectWriter`'s lifetime can end, and nothing can follow either. -/
inductive Ending where
  | finalizeEnd
  | dropEnd

/-- Run a sequence of `Write`-interface operations on a writer, threading
the state and collecting the event trace; a panic aborts the run.  A write
or flush error leaves the writer usable (the caller keeps it), as in Rust. -/
def runOps (o : WOracle) : List WOp → DetectWriter → CallResult DetectWriter × List Ev
  | [], w => (CallResult.returned w, [])
  | WOp.write bs :: rest, w =>
      (match DetectWriter.write bs w with
       | CallResult.panicked m => (CallResult.panicked m, [])
       | CallResult.returned (Except.error _) => runOps o rest w
       | CallResult.returned (Except.ok (_, w')) => runOps o rest w')
  | WOp.flush :: rest, w =>
      match DetectWriter.flush o w with
      | (CallResult.panicked m, tr) => (CallResult.panicked m, tr)
      | (CallResult.returned (_, w'), tr) =>
          let (res, tr2) := runOps o rest w'
          (res, tr ++ tr2)

/-- A complete writer lifetime: the interface operations, then the ending
(explicit `finalize`, or the implicit drop).  Results: how the lifetime
ended, the surviving inner chain (none when a panic aborted mid-operation),
and the full event trace. -/
def runLifecycle (o : WOracle) (ops : List WOp) (e : Ending) (w : DetectWriter) :
    TermOutcome × Option InnerW × List Ev :=
  match runOps o ops w with
  | (CallResult.panicked m, tr) => (TermOutcome.panicked m, Option.none, tr)
  | (CallResult.returned w', tr) =>
      match e with
      | Ending.dropEnd => (w'.dropW, some w'.inner, tr)
      | Ending.finalizeEnd =>
          match DetectWriter.finalize o w' with
          | (CallResult.panicked m, i, tr2) => (TermOutcome.panicked m, some i, tr ++ tr2)
          | (CallResult.returned _, i, tr2) => (TermOutcome.normal, some i, tr ++ tr2)

/-- Bytes present in the target file when the writer chain is the plain
buffered writer over the wrapped file (the identity-codec path); for the
encoder paths the compressed file bytes are opaque. -/
def innerFileBytes : InnerW → Option (List Nat)
  | InnerW.bufW st => some st.dest.fileBytes
  | _ => Option.none

/-- The wrapped file the `Id` wrapper produces: identity transform, nothing
written yet. -/
def idWf : WrappedFileW := ⟨fun bs => bs, []⟩

/-- The writer `create` builds on an identity-codec path (no recognized
extension): a plain buffered writer over the `Id`-wrapped file. -/
def idWriter0 : DetectWriter := ⟨InnerW.bufW ⟨idWf, []⟩, true⟩

/-- The lz4 encoder state `create` builds for `Level::Minimum` with the `Id`
wrapper: level 1, content checksum enabled, nothing written. -/
def lz4St0 : Lz4EncoderSt := ⟨1, true, [], ⟨idWf, []⟩⟩

/-- The writer `create` builds for an "lz4" path at `Level::Minimum` with
the `Id` wrapper. -/
def lz4Writer0 : DetectWriter := ⟨InnerW.lz4Enc (some lz4St0), true⟩

/-- A concrete I/O error used as the oracle's flush failure. -/
def flushFailErr : IOError := ⟨ErrorKind.other, "flush failed"⟩

/-- Oracle whose underlying flush fails. -/
def flushFailO : WOracle := ⟨some flushFailErr, Option.none⟩

/-- A concrete I/O error used as the oracle's `Lz4Encoder::finish` failure. -/
def finishFailErr : IOError := ⟨ErrorKind.other, "finish failed"⟩

/-- Oracle whose lz4 frame completion fails. -/
def finishFailO : WOracle := ⟨Option.none, some finishFailErr⟩

/-- A well-formed-content gzip decoder oracle: decodes to the raw bytes
with no pending error (the decoded bytes are irrelevant to the claims). -/
def gzDecC : List Nat → List Nat × Option IOError := fun bs => (bs, Option.none)

/-- A succeeding `Lz4Decoder::new` oracle. -/
def lz4NewC : List Nat → Except IOError Lz4DecSt := fun bs => Except.ok ⟨bs, Option.none⟩

/-- A concrete I/O error for a malformed lz4 frame header. -/
def lz4HdrErr : IOError := ⟨ErrorKind.other, "bad lz4 frame header"⟩

/-- A failing `Lz4Decoder::new` oracle: the frame header read during
construction fails. -/
def lz4FailNew : List Nat → Except IOError Lz4DecSt := fun _ => Except.error lz4HdrErr

/-- On a path the dispatch sends to the identity codec, `open_with_wrapper`
returns the plain buffered reader over the wrapped file bytes. -/
theorem open_wrap_identity {B : Type} [ReadWrapperBuilder B] (p : PathM) (b : B)
    (f : List Nat) (l4 : List Nat → Except IOError Lz4DecSt)
    (gz : List Nat → List Nat × Option IOError)
    (h : detectCodec p.ext = Codec.identity) :
    DetectReader.open_with_wrapper p b (Except.ok f) l4 gz =
      Except.ok ⟨Codec.identity, ReadWrapperBuilder.new_wrapped_reader b f, Option.none⟩ := by
  obtain ⟨ext⟩ := p
  cases ext with
  | none => rfl
  | some e =>
      simp only [detectCodec] at h
      by_cases hg : e = "gz"
      · simp [hg] at h
      · by_cases hl : e = "lz4"
        · simp [hg, hl] at h
        · simp [DetectReader.open_with_wrapper, hg, hl]

/-- On a "gz" path, `open_with_wrapper` returns the gzip reader over the
wrapped bytes: construction is infallible and reads nothing, and the decode
error of malformed content, if any, is pending for later reads. -/
theorem open_wrap_gzip {B : Type} [ReadWrapperBuilder B] (p : PathM) (b : B)
    (f : List Nat) (l4 : List Nat → Except IOError Lz4DecSt)
    (gz : List Nat → List Nat × Option IOError)
    (h : detectCodec p.ext = Codec.gzip) :
    DetectReader.open_with_wrapper p b (Except.ok f) l4 gz =
      Except.ok ⟨Codec.gzip, (gz (ReadWrapperBuilder.new_wrapped_reader b f)).1,
        (gz (ReadWrapperBuilder.new_wrapped_reader b f)).2⟩ := by
  obtain ⟨ext⟩ := p
  cases ext with
  | none => simp [detectCodec] at h
  | some e =>
      simp only [detectCodec] at h
      by_cases hg : e = "gz"
      · simp [DetectReader.open_with_wrapper, hg]
      · by_cases hl : e = "lz4"
        · simp [hg, hl] at h
        · simp [hg, hl] at h

/-- On an "lz4" path, `open_with_wrapper` runs `Lz4Decoder::new` on the
wrapped bytes and propagates its result: the decoder construction reads the
frame header and its failure surfaces at open time. -/
theorem open_wrap_lz4 {B : Type} [ReadWrapperBuilder B] (p : PathM) (b : B)
    (f : List Nat) (l4 : List Nat → Except IOError Lz4DecSt)
    (gz : List Nat → List Nat × Option IOError)
    (h : detectCodec p.ext = Codec.lz4) :
    DetectReader.open_with_wrapper p b (Except.ok f) l4 gz =
      (match l4 (ReadWrapperBuilder.new_wrapped_reader b f) with
       | Except.error er => Except.error er
       | Except.ok d => Except.ok ⟨Codec.lz4, d.output, d.tailErr⟩) := by
  obtain ⟨ext⟩ := p
  cases ext with
  | none => simp [detectCodec] at h
  | some e =>
      simp only [detectCodec] at h
      by_cases hg : e = "gz"
      · simp [hg] at h
      · by_cases hl : e = "lz4"
        · simp [DetectReader.open_with_wrapper, hg, hl]
        · simp [hg, hl] at h

/-- On an identity-codec path, `create_with_wrapper` builds the plain
buffered writer over the wrapped file (the level is not consulted). -/
theorem create_wrap_identity {B : Type} [WriteWrapperBuilder B] (p : PathM) (lvl : Level)
    (b : B) (f : FileW) (lz4B : Except IOError Unit)
    (h : detectCodec p.ext = Codec.identity) :
    DetectWriter.create_with_wrapper p lvl b (Except.ok f) lz4B =
      (Except.ok ⟨InnerW.bufW ⟨WriteWrapperBuilder.new_wrapped_writer b f, []⟩, true⟩,
        some (WriteWrapperBuilder.new_wrapped_writer b f).fileBytes) := by
  obtain ⟨ext⟩ := p
  cases ext with
  | none => rfl
  | some e =>
      simp only [detectCodec] at h
      by_cases hg : e = "gz"
      · simp [hg] at h
      · by_cases hl : e = "lz4"
        · simp [hg, hl] at h
        · simp [DetectWriter.create_with_wrapper, hg, hl]

/-- On a "gz" path, `create_with_wrapper` builds the gzip encoder with the
level's flate2 compression over the buffered wrapped file; it always
succeeds once the file is created. -/
theorem create_wrap_gzip {B : Type} [WriteWrapperBuilder B] (p : PathM) (lvl : Level)
    (b : B) (f : FileW) (lz4B : Except IOError Unit)
    (h : detectCodec p.ext = Codec.gzip) :
    DetectWriter.create_with_wrapper p lvl b (Except.ok f) lz4B =
      (Except.ok ⟨InnerW.gzEnc ⟨lvl.into_flate2_compression, [],
          ⟨WriteWrapperBuilder.new_wrapped_writer b f, []⟩⟩, true⟩,
        some (WriteWrapperBuilder.new_wrapped_writer b f).fileBytes) := by
  obtain ⟨ext⟩ := p
  cases ext with
  | none => simp [detectCodec] at h
  | some e =>
      simp only [detectCodec] at h
      by_cases hg : e = "gz"
      · simp [DetectWriter.create_with_wrapper, hg]
      · by_cases hl : e = "lz4"
        · simp [hg, hl] at h
        · simp [hg, hl] at h

/-- On an "lz4" path, `create_with_wrapper` first maps the level (which
rejects `Level::None`), then runs the encoder builder, and wraps a success
in `FinalizeLz4Encoder` with the content checksum enabled. -/
theorem create_wrap_lz4 {B : Type} [WriteWrapperBuilder B] (p : PathM) (lvl : Level)
    (b : B) (f : FileW) (lz4B : Except IOError Unit)
    (h : detectCodec p.ext = Codec.lz4) :
    DetectWriter.create_with_wrapper p lvl b (Except.ok f) lz4B =
      (match lvl.into_lz4_level with
       | Except.error er => Except.error er
       | Except.ok lv =>
           match lz4B with
           | Except.error er => Except.error er
           | Except.ok _ =>
               Except.ok ⟨InnerW.lz4Enc (some ⟨lv, true, [],
                 ⟨WriteWrapperBuilder.new_wrapped_writer b f, []⟩⟩), true⟩,
        some (WriteWrapperBuilder.new_wrapped_writer b f).fileBytes) := by
  obtain ⟨ext⟩ := p
  cases ext with
  | none => simp [detectCodec] at h
  | some e =>
      simp only [detectCodec] at h
      by_cases hg : e = "gz"
      · simp [hg] at h
      · by_cases hl : e = "lz4"
        · simp only [DetectWriter.create_with_wrapper, hg, hl, if_false, if_true, if_neg, if_pos]
          cases lvl.into_lz4_level with
          | error er => rfl
          | ok lv => cases lz4B with
            | error er => rfl
            | ok u => rfl
        · simp [hg, hl] at h

/-- Shape of the lz4 finalization when the flush step succeeds: flush, then
frame completion, the encoder taken out of its `Option`. -/
theorem finalizeI_lz4_ok (o : WOracle) (st : Lz4EncoderSt) (h : o.flushErr = Option.none) :
    InnerW.finalizeI o (InnerW.lz4Enc (some st)) =
      (CallResult.returned (finishRes o, InnerW.lz4Enc Option.none), [Ev.flush, Ev.lz4Finish]) := by
  simp [InnerW.finalizeI, InnerW.flushI, h]

/-- Shape of the lz4 finalization when the flush step fails: the error is
propagated, the frame is not completed, the encoder stays in place. -/
theorem finalizeI_lz4_flushFail (o : WOracle) (st : Lz4EncoderSt) (e : IOError)
    (h : o.flushErr = some e) :
    InnerW.finalizeI o (InnerW.lz4Enc (some st)) =
      (CallResult.returned (Except.error e, InnerW.lz4Enc (some st)), [Ev.flush]) := by
  simp [InnerW.finalizeI, InnerW.flushI, h]

/-- Finalizing an lz4 chain whose encoder was already taken panics via the
source's `expect`, performing nothing. -/
theorem finalizeI_lz4_taken (o : WOracle) :
    InnerW.finalizeI o (InnerW.lz4Enc Option.none) =
      (CallResult.panicked alreadyFinalizedMsg, []) := rfl

/-- No inner-chain flush ever records an `innerFin` event. -/
theorem flushI_count_innerFin (o : WOracle) (i : InnerW) :
    (InnerW.flushI o i).2.count Ev.innerFin = 0 := by
  cases i with
  | bufW st => rfl
  | gzEnc st => rfl
  | lz4Enc x => cases x with
    | none => rfl
    | some st => rfl

/-- No inner-chain finalization records an `innerFin` event (that event
marks the `DetectWriter::finalize` call site itself). -/
theorem finalizeI_count_innerFin (o : WOracle) (i : InnerW) :
    (InnerW.finalizeI o i).2.count Ev.innerFin = 0 := by
  cases i with
  | bufW st => exact flushI_count_innerFin o (InnerW.bufW st)
  | gzEnc st => exact flushI_count_innerFin o (InnerW.gzEnc st)
  | lz4Enc x =>
      cases x with
      | none => rfl
      | some st =>
          cases h : o.flushErr with
          | none => rw [finalizeI_lz4_ok o st h]; rfl
          | some e => rw [finalizeI_lz4_flushFail o st e h]; rfl

/-- The trace of a `DetectWriter` flush is that of the inner chain's flush. -/
theorem flush_trace (o : WOracle) (w : DetectWriter) :
    (DetectWriter.flush o w).2 = (InnerW.flushI o w.inner).2 := by
  unfold DetectWriter.flush
  rcases h : InnerW.flushI o w.inner with ⟨cr, tr⟩
  cases cr with
  | panicked m => rfl
  | returned ri => rfl

/-- A run of `Write`-interface operations never invokes the inner
finalization. -/
theorem runOps_count_innerFin (o : WOracle) (ops : List WOp) (w : DetectWriter) :
    (runOps o ops w).2.count Ev.innerFin = 0 := by
  induction ops generalizing w with
  | nil => rfl
  | cons op rest ih =>
      cases op with
      | write bs =>
          simp only [runOps]
          cases h : DetectWriter.write bs w with
          | panicked m => rfl
          | returned r =>
              cases r with
              | error e => exact ih w
              | ok nw => exact ih nw.2
      | flush =>
          simp only [runOps]
          rcases hf : DetectWriter.flush o w with ⟨cr, tr⟩
          have htr : tr.count Ev.innerFin = 0 := by
            have h2 : tr = (InnerW.flushI o w.inner).2 := by
              have h3 := flush_trace o w
              rw [hf] at h3
              exact h3
            rw [h2]
            exact flushI_count_innerFin o w.inner
          cases cr with
          | panicked m => exact htr
          | returned rw =>
              simp only [List.count_append, htr, Nat.zero_add]
              exact ih rw.2

/-- `DetectWriter::finalize` records at most one `innerFin` event. -/
theorem finalize_count_innerFin (o : WOracle) (w : DetectWriter) :
    (DetectWriter.finalize o w).2.2.count Ev.innerFin ≤ 1 := by
  unfold DetectWriter.finalize
  by_cases hc : w.not_closed
  · simp only [hc, if_true]
    rcases hf : InnerW.finalizeI o w.inner with ⟨cr, tr⟩
    have htr : tr.count Ev.innerFin = 0 := by
      have := finalizeI_count_innerFin o w.inner
      rw [hf] at this
      exact this
    cases cr with
    | panicked m => simp [List.count_cons, htr]
    | returned ri =>
        obtain ⟨r1, i⟩ := ri
        cases r1 with
        | error e => simp [List.count_cons, htr]
        | ok u => simp [List.count_cons, htr]
  · simp [hc]

/-- Writing a sequence of byte chunks through a plain buffered writer
appends their concatenation to the buffer, with an empty event trace. -/
theorem runOps_writes_bufW (o : WOracle) (pieces : List (List Nat))
    (wf : WrappedFileW) (buf : List Nat) (c : Bool) :
    runOps o (pieces.map WOp.write) ⟨InnerW.bufW ⟨wf, buf⟩, c⟩ =
      (CallResult.returned ⟨InnerW.bufW ⟨wf, buf ++ pieces.flatten⟩, c⟩, []) := by
  induction pieces generalizing buf with
  | nil => simp [runOps]
  | cons p ps ih =>
      simp only [List.map_cons, runOps, DetectWriter.write, InnerW.writeI,
        BufWriterSt.writeB, List.flatten_cons]
      rw [ih (buf ++ p)]
      rw [List.append_assoc]

/-- C1.  The claim says exactly one of {finalize called, abnormal
termination} occurs per writer; the code violates it.  At the concrete
failing input — the lz4 writer `create` builds for `Level::Minimum`, with
an underlying flush that fails during finalization — the lifecycle that
calls `finalize` (so the first branch occurs) still ends in the `Drop`
panic (so the second occurs too): the early `Err` return inside `finalize`
drops `self` while `not_closed` is still `true`. -/
theorem c1_finalize_called_and_drop_panics :
    (DetectWriter.create ⟨some "lz4"⟩ Level.minimum (Except.ok FileW.mk) (Except.ok ())).1 =
      Except.ok lz4Writer0 ∧
    runLifecycle flushFailO [] Ending.finalizeEnd lz4Writer0 =
      (TermOutcome.panicked dropMsg, some (InnerW.lz4Enc (some lz4St0)),
        [Ev.innerFin, Ev.flush]) :=
  ⟨rfl, rfl⟩

/-- C2.  The claim says `finalize` returns the inner finalization step's
I/O error to the caller as an ordinary recoverable error; the code does
not.  At the concrete failing input — the lz4 writer `create` builds, with
`Lz4Encoder::finish` (the frame-completion step) failing — `finalize`
panics via the `Drop` impl instead of returning the error: the `?`
early-return drops the consumed `self` while `not_closed` is still `true`,
and the `Err` value never reaches the caller. -/
theorem c2_finalize_error_not_returned :
    DetectWriter.finalize finishFailO lz4Writer0 =
      (CallResult.panicked dropMsg, InnerW.lz4Enc Option.none,
        [Ev.innerFin, Ev.flush, Ev.lz4Finish]) :=
  rfl

/-- C3 counterexample.  The claim says the invalid-input error for
`Level::None` on an "lz4" path is raised before any file is touched, so no
partial output is produced at the target path; but `File::create(path)`
runs first in `create_with_wrapper`, so at this concrete input the call
returns the invalid-input error while the target file has been created
(truncated to empty) — the second component is not `none` (`none` would
mean no file was produced). -/
theorem c3_counterexample_file_touched :
    (DetectWriter.create ⟨some "lz4"⟩ Level.none (Except.ok FileW.mk) (Except.ok ())).1 =
      Except.error ⟨ErrorKind.invalidInput, "LZ4 don't support non-compression mode"⟩ ∧
    (DetectWriter.create ⟨some "lz4"⟩ Level.none (Except.ok FileW.mk) (Except.ok ())).2 =
      some [] ∧
    (DetectWriter.create ⟨some "lz4"⟩ Level.none (Except.ok FileW.mk) (Except.ok ())).2 ≠
      Option.none :=
  ⟨rfl, rfl, fun h => Option.noConfusion h⟩

/-- C3 amended.  For every path whose extension is exactly "lz4", `create`
and `create_with_wrapper` with `Level::None` return the invalid-input
error synchronously at creation time, before any bytes are written — but
after `File::create` has already created (truncated) the target file, so
an empty file is left at the target path. -/
theorem c3_amended_invalid_input_after_create {B : Type} [WriteWrapperBuilder B]
    (b : B) (f : FileW) (lz4B : Except IOError Unit) :
    (DetectWriter.create_with_wrapper ⟨some "lz4"⟩ Level.none b (Except.ok f) lz4B).1 =
      Except.error ⟨ErrorKind.invalidInput, "LZ4 don't support non-compression mode"⟩ ∧
    (DetectWriter.create_with_wrapper ⟨some "lz4"⟩ Level.none b (Except.ok f) lz4B).2 =
      some (WriteWrapperBuilder.new_wrapped_writer b f).fileBytes ∧
    DetectWriter.create ⟨some "lz4"⟩ Level.none (Except.ok FileW.mk) lz4B =
      (Except.error ⟨ErrorKind.invalidInput, "LZ4 don't support non-compression mode"⟩,
        some []) :=
  ⟨rfl, rfl, rfl⟩

/-- C4.  Format dispatch, for both `open` and `create`, selects the codec
purely from the path's extension by case-sensitive exact comparison: any
successfully constructed reader or writer carries the codec given by the
pure, total decision rule `detectCodec`, for every wrapper, level, and
filesystem/decoder/encoder oracle (so the decision performs no I/O); "gz"
selects gzip, "lz4" selects lz4, and anything else — including the
differently-cased "GZ" and a missing extension — selects the identity
codec. -/
theorem c4_dispatch_pure_case_sensitive :
    (∀ {B : Type} [ReadWrapperBuilder B] (p : PathM) (b : B)
        (fopen : Except IOError (List Nat)) (l4 : List Nat → Except IOError Lz4DecSt)
        (gz : List Nat → List Nat × Option IOError) (r : DetectReader),
        DetectReader.open_with_wrapper p b fopen l4 gz = Except.ok r →
          r.codec = detectCodec p.ext) ∧
    (∀ {B : Type} [WriteWrapperBuilder B] (p : PathM) (lvl : Level) (b : B)
        (fc : Except IOError FileW) (lz4B : Except IOError Unit) (w : DetectWriter),
        (DetectWriter.create_with_wrapper p lvl b fc lz4B).1 = Except.ok w →
          w.inner.codecOf = detectCodec p.ext) ∧
    detectCodec (some "gz") = Codec.gzip ∧
    detectCodec (some "lz4") = Codec.lz4 ∧
    detectCodec (some "GZ") = Codec.identity ∧
    detectCodec Option.none = Codec.identity ∧
    (∀ e : String, e ≠ "gz" → e ≠ "lz4" → detectCodec (some e) = Codec.identity) := by
  refine ⟨?_, ?_, rfl, rfl, rfl, rfl, ?_⟩
  · intro B _ p b fopen l4 gz r hr
    cases fopen with
    | error e => exact absurd hr (by simp [DetectReader.open_with_wrapper])
    | ok f =>
        cases hc : detectCodec p.ext with
        | gzip =>
            rw [open_wrap_gzip p b f l4 gz hc] at hr
            cases hr
            rfl
        | identity =>
            rw [open_wrap_identity p b f l4 gz hc] at hr
            cases hr
            rfl
        | lz4 =>
            rw [open_wrap_lz4 p b f l4 gz hc] at hr
            cases hd : l4 (ReadWrapperBuilder.new_wrapped_reader b f) with
            | error er => rw [hd] at hr; cases hr
            | ok d => rw [hd] at hr; cases hr; rfl
  · intro B _ p lvl b fc lz4B w hw
    cases fc with
    | error e => exact absurd hw (by simp [DetectWriter.create_with_wrapper])
    | ok f =>
        cases hc : detectCodec p.ext with
        | gzip =>
            rw [create_wrap_gzip p lvl b f lz4B hc] at hw
            cases hw
            rfl
        | identity =>
            rw [create_wrap_identity p lvl b f lz4B hc] at hw
            cases hw
            rfl
        | lz4 =>
            rw [create_wrap_lz4 p lvl b f lz4B hc] at hw
            cases hlv : lvl.into_lz4_level with
            | error er => rw [hlv] at hw; cases hw
            | ok lv =>
                rw [hlv] at hw
                cases lz4B with
                | error er => cases hw
                | ok u => cases hw; rfl
  · intro e hg hl
    simp [detectCodec, hg, hl]

/-- C4 witness: the general dispatch theorem applied at concrete inputs —
a "gz" open, an "lz4" create, the differently-cased "GZ", and an
unrecognized extension "txt". -/
theorem c4_witness :
    (⟨Codec.gzip, [7], Option.none⟩ : DetectReader).codec = detectCodec (some "gz") ∧
    lz4Writer0.inner.codecOf = detectCodec (some "lz4") ∧
    detectCodec (some "GZ") = Codec.identity ∧
    detectCodec (some "txt") = Codec.identity :=
  ⟨c4_dispatch_pure_case_sensitive.1 ⟨some "gz"⟩ Id.mk (Except.ok [7]) lz4NewC gzDecC
      ⟨Codec.gzip, [7], Option.none⟩ rfl,
    c4_dispatch_pure_case_sensitive.2.1 ⟨some "lz4"⟩ Level.minimum Id.mk
      (Except.ok FileW.mk) (Except.ok ()) lz4Writer0 rfl,
    c4_dispatch_pure_case_sensitive.2.2.2.2.1,
    c4_dispatch_pure_case_sensitive.2.2.2.2.2.2 "txt" (by decide) (by decide)⟩

/-- C5.  The per-codec finalize dispatch: for the plain buffered writer and
for the gzip encoder, `finalize` is exactly the flush (the `Finalize`
trait's default method, same result, same state, same single flush event);
for the lz4 chain, a successful finalize performs exactly the two steps in
order — flush, then frame completion — exactly once, taking the encoder
out (released), and when the flush step fails the completion step does not
run. -/
theorem c5_finalize_per_codec (o : WOracle) (stB : BufWriterSt) (stG : GzEncoderSt)
    (stL : Lz4EncoderSt) :
    InnerW.finalizeI o (InnerW.bufW stB) = InnerW.flushI o (InnerW.bufW stB) ∧
    InnerW.finalizeI o (InnerW.gzEnc stG) = InnerW.flushI o (InnerW.gzEnc stG) ∧
    (o.flushErr = Option.none →
      InnerW.finalizeI o (InnerW.lz4Enc (some stL)) =
        (CallResult.returned (finishRes o, InnerW.lz4Enc Option.none),
          [Ev.flush, Ev.lz4Finish])) ∧
    (∀ e : IOError, o.flushErr = some e →
      InnerW.finalizeI o (InnerW.lz4Enc (some stL)) =
        (CallResult.returned (Except.error e, InnerW.lz4Enc (some stL)), [Ev.flush])) :=
  ⟨rfl, rfl, fun h => finalizeI_lz4_ok o stL h, fun e h => finalizeI_lz4_flushFail o stL e h⟩

/-- C5 witness: the lz4 two-step finalization evaluated at the concrete
encoder `create` builds, under the no-error oracle and under a failing
flush. -/
theorem c5_witness :
    InnerW.finalizeI noErrO (InnerW.lz4Enc (some lz4St0)) =
      (CallResult.returned (Except.ok (), InnerW.lz4Enc Option.none),
        [Ev.flush, Ev.lz4Finish]) ∧
    InnerW.finalizeI flushFailO (InnerW.lz4Enc (some lz4St0)) =
      (CallResult.returned (Except.error flushFailErr, InnerW.lz4Enc (some lz4St0)),
        [Ev.flush]) :=
  ⟨(c5_finalize_per_codec noErrO ⟨idWf, []⟩ ⟨Compression.none, [], ⟨idWf, []⟩⟩ lz4St0).2.2.1 rfl,
    (c5_finalize_per_codec flushFailO ⟨idWf, []⟩ ⟨Compression.none, [], ⟨idWf, []⟩⟩ lz4St0).2.2.2
      flushFailErr rfl⟩

/-- C6.  The compression-level mapping: for the gzip backend the mapping is
total — `None` to `Compression::none()` (no compression), `Minimum` to
`Compression::fast()`, `Maximum` to `Compression::best()`; for the lz4
backend `Minimum` maps to level 1 and `Maximum` to level 3. -/
theorem c6_level_mapping :
    Level.none.into_flate2_compression = Compression.none ∧
    Level.minimum.into_flate2_compression = Compression.fast ∧
    Level.maximum.into_flate2_compression = Compression.best ∧
    Level.minimum.into_lz4_level = Except.ok 1 ∧
    Level.maximum.into_lz4_level = Except.ok 3 :=
  ⟨rfl, rfl, rfl, rfl, rfl⟩

/-- C7.  On every path whose extension is unrecognized or absent (identity
dispatch), for every level and every sequence of written byte chunks: the
writer `create` builds stores exactly the concatenation of the written
bytes in the target file once finalized (byte-for-byte identity, no
transformation), and the reader `open` builds over a file holding any
`stored` bytes yields exactly `stored` back. -/
theorem c7_identity_roundtrip (ext : Option String) (lvl : Level)
    (lz4B : Except IOError Unit) (pieces : List (List Nat)) (stored : List Nat)
    (l4 : List Nat → Except IOError Lz4DecSt) (gz : List Nat → List Nat × Option IOError)
    (h : detectCodec ext = Codec.identity) :
    (DetectWriter.create ⟨ext⟩ lvl (Except.ok FileW.mk) lz4B).1 = Except.ok idWriter0 ∧
    (runLifecycle noErrO (pieces.map WOp.write) Ending.finalizeEnd idWriter0).1 =
      TermOutcome.normal ∧
    ((runLifecycle noErrO (pieces.map WOp.write) Ending.finalizeEnd idWriter0).2.1.bind
        innerFileBytes) = some pieces.flatten ∧
    DetectReader.open' ⟨ext⟩ (Except.ok stored) l4 gz =
      Except.ok ⟨Codec.identity, stored, Option.none⟩ ∧
    DetectReader.readAll ⟨Codec.identity, stored, Option.none⟩ = stored := by
  have hrun : runLifecycle noErrO (pieces.map WOp.write) Ending.finalizeEnd idWriter0 =
      (TermOutcome.normal, some (InnerW.bufW ⟨⟨fun bs => bs, pieces.flatten⟩, []⟩),
        [Ev.innerFin, Ev.flush]) := by
    have h1 := runOps_writes_bufW noErrO pieces idWf [] true
    rw [show (⟨InnerW.bufW ⟨idWf, []⟩, true⟩ : DetectWriter) = idWriter0 from rfl] at h1
    unfold runLifecycle
    rw [h1]
    simp [DetectWriter.finalize, InnerW.finalizeI, InnerW.flushI, BufWriterSt.flushB,
      noErrO, idWf]
  refine ⟨?_, ?_, ?_, ?_, rfl⟩
  · show (DetectWriter.create_with_wrapper ⟨ext⟩ lvl Id.mk (Except.ok FileW.mk) lz4B).1 =
      Except.ok idWriter0
    rw [create_wrap_identity ⟨ext⟩ lvl Id.mk FileW.mk lz4B h]
    rfl
  · rw [hrun]
  · rw [hrun]
    rfl
  · exact open_wrap_identity ⟨ext⟩ Id.mk stored l4 gz h

/-- C7 witness: the round trip evaluated at extension "txt", the chunks
`[1,2]` then `[3]`, and a stored file `[9,8]`. -/
theorem c7_witness :
    ((runLifecycle noErrO ([[1, 2], [3]].map WOp.write) Ending.finalizeEnd idWriter0).2.1.bind
        innerFileBytes) = some [1, 2, 3] ∧
    DetectReader.open' ⟨some "txt"⟩ (Except.ok [9, 8]) lz4NewC gzDecC =
      Except.ok ⟨Codec.identity, [9, 8], Option.none⟩ :=
  ⟨(c7_identity_roundtrip (some "txt") Level.maximum (Except.ok ()) [[1, 2], [3]] [9, 8]
      lz4NewC gzDecC (by decide)).2.2.1,
    (c7_identity_roundtrip (some "txt") Level.maximum (Except.ok ()) [[1, 2], [3]] [9, 8]
      lz4NewC gzDecC (by decide)).2.2.2.1⟩

/-- C8.  `open` is definitionally `open_with_wrapper` with the default `Id`
wrapper and `create` is definitionally `create_with_wrapper` with `Id`;
the `Id` wrapper hands the raw file through unchanged (read side: the raw
bytes; write side: identity transform, nothing buffered). -/
theorem c8_default_wrapper_id :
    (∀ (p : PathM) (fopen : Except IOError (List Nat))
        (l4 : List Nat → Except IOError Lz4DecSt)
        (gz : List Nat → List Nat × Option IOError),
        DetectReader.open' p fopen l4 gz =
          DetectReader.open_with_wrapper p Id.mk fopen l4 gz) ∧
    (∀ (p : PathM) (lvl : Level) (fc : Except IOError FileW)
        (lz4B : Except IOError Unit),
        DetectWriter.create p lvl fc lz4B =
          DetectWriter.create_with_wrapper p lvl Id.mk fc lz4B) ∧
    (∀ bs : List Nat, ReadWrapperBuilder.new_wrapped_reader Id.mk bs = bs) ∧
    (∀ f : FileW, (WriteWrapperBuilder.new_wrapped_writer Id.mk f).received = [] ∧
      ∀ bs : List Nat, (WriteWrapperBuilder.new_wrapped_writer Id.mk f).transform bs = bs) :=
  ⟨fun _ _ _ _ => rfl, fun _ _ _ _ => rfl, fun _ => rfl, fun _ => ⟨rfl, fun _ => rfl⟩⟩

/-- C9.  Open-time error behaviour per codec: a raw-file open error
propagates unchanged for every extension; on paths not dispatched to lz4,
opening succeeds whenever the raw file opens (no other open-time failure
exists); on "lz4" paths the decoder construction, which reads the frame
header, can fail at open time and its error propagates; and on "gz" paths
the open succeeds even over malformed content — the decode error is
surfaced only by a later read, once the readable bytes are exhausted. -/
theorem c9_open_error_paths :
    (∀ {B : Type} [ReadWrapperBuilder B] (p : PathM) (b : B) (e : IOError)
        (l4 : List Nat → Except IOError Lz4DecSt)
        (gz : List Nat → List Nat × Option IOError),
        DetectReader.open_with_wrapper p b (Except.error e) l4 gz = Except.error e) ∧
    (∀ {B : Type} [ReadWrapperBuilder B] (p : PathM) (b : B) (f : List Nat)
        (l4 : List Nat → Except IOError Lz4DecSt)
        (gz : List Nat → List Nat × Option IOError),
        detectCodec p.ext ≠ Codec.lz4 →
        ∃ r : DetectReader,
          DetectReader.open_with_wrapper p b (Except.ok f) l4 gz = Except.ok r) ∧
    (∀ {B : Type} [ReadWrapperBuilder B] (p : PathM) (b : B) (f : List Nat) (e : IOError)
        (l4 : List Nat → Except IOError Lz4DecSt)
        (gz : List Nat → List Nat × Option IOError),
        detectCodec p.ext = Codec.lz4 →
        l4 (ReadWrapperBuilder.new_wrapped_reader b f) = Except.error e →
        DetectReader.open_with_wrapper p b (Except.ok f) l4 gz = Except.error e) ∧
    (∀ {B : Type} [ReadWrapperBuilder B] (p : PathM) (b : B) (f : List Nat)
        (l4 : List Nat → Except IOError Lz4DecSt)
        (gz : List Nat → List Nat × Option IOError),
        detectCodec p.ext = Codec.gzip →
        DetectReader.open_with_wrapper p b (Except.ok f) l4 gz =
          Except.ok ⟨Codec.gzip, (gz (ReadWrapperBuilder.new_wrapped_reader b f)).1,
            (gz (ReadWrapperBuilder.new_wrapped_reader b f)).2⟩) ∧
    (∀ e : IOError, DetectReader.fill_buf ⟨Codec.gzip, [], some e⟩ = Except.error e) := by
  refine ⟨fun _ _ _ _ _ => rfl, ?_, ?_, ?_, fun e => rfl⟩
  · intro B _ p b f l4 gz hne
    cases hc : detectCodec p.ext with
    | gzip => exact ⟨_, open_wrap_gzip p b f l4 gz hc⟩
    | identity => exact ⟨_, open_wrap_identity p b f l4 gz hc⟩
    | lz4 => exact absurd hc hne
  · intro B _ p b f e l4 gz hc hl4
    rw [open_wrap_lz4 p b f l4 gz hc, hl4]
  · intro B _ p b f l4 gz hc
    exact open_wrap_gzip p b f l4 gz hc

/-- C9 witness: an "lz4" open failing with the frame-header error when the
file itself opened fine; a "gz" open succeeding; the pending decode error
of a malformed gzip stream surfacing on a read after the bytes ran out. -/
theorem c9_witness :
    DetectReader.open_with_wrapper ⟨some "lz4"⟩ Id.mk (Except.ok [1]) lz4FailNew gzDecC =
      Except.error lz4HdrErr ∧
    (∃ r : DetectReader,
      DetectReader.open_with_wrapper ⟨some "gz"⟩ Id.mk (Except.ok [1]) lz4NewC gzDecC =
        Except.ok r) ∧
    DetectReader.fill_buf ⟨Codec.gzip, [], some lz4HdrErr⟩ = Except.error lz4HdrErr :=
  ⟨c9_open_error_paths.2.2.1 ⟨some "lz4"⟩ Id.mk [1] lz4HdrErr lz4FailNew gzDecC rfl rfl,
    c9_open_error_paths.2.1 ⟨some "gz"⟩ Id.mk [1] lz4NewC gzDecC (by decide),
    c9_open_error_paths.2.2.2.2 lz4HdrErr⟩

/-- C10.  The inner finalization routine runs at most once per writer
lifetime: over every lifecycle realizable through the public interface
(create, writes and flushes, then the consuming `finalize` or the drop),
the event marking an invocation of `self.inner.finalize()` occurs at most
once in the trace; and the `not_closed` flag guards the inner call — on a
writer already marked closed, `finalize` invokes nothing at all. -/
theorem c10_inner_finalize_at_most_once :
    (∀ (o : WOracle) (ops : List WOp) (e : Ending) (w : DetectWriter),
        (runLifecycle o ops e w).2.2.count Ev.innerFin ≤ 1) ∧
    (∀ (o : WOracle) (w : DetectWriter), w.not_closed = false →
        (DetectWriter.finalize o w).2.2 = []) := by
  constructor
  · intro o ops e w
    unfold runLifecycle
    split
    next m tr heq =>
        have htr : tr.count Ev.innerFin = 0 := by
          have h2 := runOps_count_innerFin o ops w
          rw [heq] at h2
          exact h2
        simp [htr]
    next w' tr heq =>
        have htr : tr.count Ev.innerFin = 0 := by
          have h2 := runOps_count_innerFin o ops w
          rw [heq] at h2
          exact h2
        split
        · simp [htr]
        · split
          next m i2 tr2 heq2 =>
              have h2 : tr2.count Ev.innerFin ≤ 1 := by
                have h3 := finalize_count_innerFin o w'
                rw [heq2] at h3
                exact h3
              simpa [List.count_append, htr] using h2
          next a i2 tr2 heq2 =>
              have h2 : tr2.count Ev.innerFin ≤ 1 := by
                have h3 := finalize_count_innerFin o w'
                rw [heq2] at h3
                exact h3
              simpa [List.count_append, htr] using h2
  · intro o w h
    unfold DetectWriter.finalize
    rw [h]
    rfl

/-- C10 witness: a full lifecycle — write, flush, then finalize — of the
lz4 writer under a failing frame completion records exactly at most one
inner finalization; and finalizing a closed writer records nothing. -/
theorem c10_witness :
    (runLifecycle finishFailO [WOp.write [1], WOp.flush] Ending.finalizeEnd
        lz4Writer0).2.2.count Ev.innerFin ≤ 1 ∧
    (DetectWriter.finalize noErrO ⟨InnerW.lz4Enc Option.none, false⟩).2.2 = [] :=
  ⟨c10_inner_finalize_at_most_once.1 finishFailO [WOp.write [1], WOp.flush]
      Ending.finalizeEnd lz4Writer0,
    c10_inner_finalize_at_most_once.2 noErrO ⟨InnerW.lz4Enc Option.none, false⟩ rfl⟩

end DetectCompression
